import Mathlib

/-!
Verification of the hydrarelease release-metadata service.

The Go source is shallowly embedded: pure helpers become Lean functions,
the YAML/JSON files managed by the stores become explicit state records,
and the stores' methods become state-passing functions.  Fallible Go
methods (returning `(T, error)`) become `Except String T`.  `time.Now()`
is threaded as an explicit `now : Nat` argument.  Strings are handled as
their character lists where Go iterates them (the separators involved are
ASCII, so byte- and rune-level iteration agree).
-/

namespace HydraRelease

/-! ## Definitions: shallow embedding of the source -/

/-- Go `strings.Split(s, sep)` for a single-character separator, on the
character list: splitting the empty string yields one empty component,
exactly as `strings.Split("", ".") = [""]`. -/
def splitOnChar (sep : Char) : List Char → List (List Char)
  | [] => [[]]
  | c :: rest =>
    let r := splitOnChar sep rest
    if c = sep then [] :: r
    else
      match r with
      | [] => [[c]]
      | h :: t => (c :: h) :: t

/-- Model of Go `n, _ := strconv.Atoi(s)` on a 64-bit platform with the
error discarded: an optional sign followed only by digits parses (clamped
to the int64 range on overflow, as `ParseInt` reports `ErrRange` together
with the clamped value); anything else yields 0 (`ErrSyntax`). -/
def goAtoi (cs : List Char) : Int :=
  let signed : Bool × List Char :=
    match cs with
    | '-' :: rest => (true, rest)
    | '+' :: rest => (false, rest)
    | _ => (false, cs)
  let neg := signed.1
  let ds := signed.2
  if ds ≠ [] ∧ ds.all Char.isDigit then
    let n : Nat := ds.foldl (fun a c => a * 10 + (c.toNat - '0'.toNat)) 0
    let v : Int := if neg then -(n : Int) else (n : Int)
    if v > 2 ^ 63 - 1 then 2 ^ 63 - 1
    else if v < -(2 ^ 63) then -(2 ^ 63)
    else v
  else 0

/-- Go `strings.TrimPrefix(s, "v")`: drop one leading "v" when present. -/
def trimPrefixV : List Char → List Char
  | 'v' :: rest => rest
  | cs => cs

/-- The numeric value the `Compare` loop extracts from one dot-component:
`numStr := strings.Split(part, "-")[0]; num, _ = strconv.Atoi(numStr)`. -/
def partVal (part : List Char) : Int :=
  goAtoi ((splitOnChar '-' part).headD [])

/-- The per-version key `Compare` works on: strip the "v" prefix, split on
".", take the numeric value of each component. -/
def verKey (s : String) : List Int :=
  (splitOnChar '.' (trimPrefixV s.data)).map partVal

/-- Tail phase of the `Compare` loop once the first list is exhausted:
the remaining components of the second list are compared against 0. -/
def cmpPadEmptyLeft : List Int → Int
  | [] => 0
  | y :: ys =>
    if (0 : Int) > y then 1 else if (0 : Int) < y then -1 else cmpPadEmptyLeft ys

/-- Tail phase of the `Compare` loop once the second list is exhausted:
the remaining components of the first list are compared against 0. -/
def cmpPadEmptyRight : List Int → Int
  | [] => 0
  | x :: xs =>
    if x > 0 then 1 else if x < 0 then -1 else cmpPadEmptyRight xs

/-- The comparison loop of `Compare`: indices `0 ≤ i < maxLen` over both
component lists, a missing component reading as 0, returning at the first
strict difference. -/
def cmpPad : List Int → List Int → Int
  | [], ys => cmpPadEmptyLeft ys
  | xs, [] => cmpPadEmptyRight xs
  | x :: xs, y :: ys =>
    if x > y then 1 else if x < y then -1 else cmpPad xs ys

/-- `version.Compare` (pkg/updater/version): returns 1 if v1 > v2, 0 if
equal, -1 if v1 < v2. -/
def Compare (v1 v2 : String) : Int :=
  cmpPad (verKey v1) (verKey v2)

/-- `version.IsNewer`. -/
def IsNewer (newVersion currentVersion : String) : Bool :=
  Compare newVersion currentVersion > 0

/-- `store.Release`. -/
structure Release where
  project : String
  environment : String
  buildNumber : Int
  version : String
  releasedBy : String
  releasedAt : Nat
  releaseNotes : String
  previousBuildNumber : Int
deriving DecidableEq, Repr

/-- `store.ReleaseIndexEntry`, a summary entry in `releases.yaml`. -/
structure ReleaseIndexEntry where
  project : String
  environment : String
  buildNumber : Int
  version : String
  releasedBy : String
  releasedAt : Nat
deriving DecidableEq, Repr

/-- `store.PromoteRequest`. -/
structure PromoteRequest where
  project : String
  environment : String
  buildNumber : Int
  version : String
  releasedBy : String
  releaseNotes : String
deriving DecidableEq, Repr

/-- The persistent state a `store.ReleaseStore` manages: the index file
`releases.yaml`, the per-(project, environment) `release.yaml` files
(`none` models a file that does not exist), and the `latest.json`
contents (version, build_number) written to the serving directory. -/
structure ReleaseStoreState where
  index : List ReleaseIndexEntry
  current : String → String → Option Release
  latestFile : String → String → Option (String × Int)

/-- The empty data directory a fresh store starts from. -/
def emptyReleaseStore : ReleaseStoreState :=
  { index := [], current := fun _ _ => none, latestFile := fun _ _ => none }

/-- `ReleaseStore.Promote`: loads the current release to capture
`previous_build_number`, saves the new per-env release state, appends one
entry to the index, and writes latest.json.  No validation of any input
is performed.  (The mutex serialising store calls is represented by the
operations being atomic state transitions.) -/
def ReleaseStore.Promote (s : ReleaseStoreState) (req : PromoteRequest) (now : Nat) :
    ReleaseStoreState × Release :=
  let previousBuild : Int :=
    match s.current req.project req.environment with
    | some c => c.buildNumber
    | none => 0
  let rel : Release :=
    { project := req.project, environment := req.environment,
      buildNumber := req.buildNumber, version := req.version,
      releasedBy := req.releasedBy, releasedAt := now,
      releaseNotes := req.releaseNotes, previousBuildNumber := previousBuild }
  let entry : ReleaseIndexEntry :=
    { project := req.project, environment := req.environment,
      buildNumber := req.buildNumber, version := req.version,
      releasedBy := req.releasedBy, releasedAt := now }
  ({ index := s.index ++ [entry],
     current := fun p e =>
       if p = req.project ∧ e = req.environment then some rel else s.current p e,
     latestFile := fun p e =>
       if p = req.project ∧ e = req.environment then some (req.version, req.buildNumber)
       else s.latestFile p e },
   rel)

/-- The backward scan in `ReleaseStore.Rollback` that recovers the
version of the previous build: iterate the index from the most recent
entry down, stopping at the first entry matching
`(project, environment, buildNumber)`; yields "" when no entry matches
(the zero value of Go's `prevVersion`). -/
def scanPrevVersion (entries : List ReleaseIndexEntry) (project env : String) (bn : Int) :
    String :=
  match entries.reverse.find?
      (fun e => e.project == project && e.environment == env && e.buildNumber == bn) with
  | some e => e.version
  | none => ""

/-- `ReleaseStore.Rollback`: fails if no current release exists or if its
`previous_build_number` is 0; otherwise recovers the previous version
from the index (falling back to the current release's version), saves
the new release, appends one index entry, and writes latest.json.  An
error is returned before any write happens, so the state is unchanged on
failure. -/
def ReleaseStore.Rollback (s : ReleaseStoreState) (project env rolledBackBy : String)
    (now : Nat) : Except String (ReleaseStoreState × Release) :=
  match s.current project env with
  | none => .error ("no release found for " ++ project ++ "/" ++ env)
  | some current =>
    if current.previousBuildNumber = 0 then
      .error ("no previous build to roll back to for " ++ project ++ "/" ++ env)
    else
      let pv := scanPrevVersion s.index project env current.previousBuildNumber
      let prevVersion := if pv = "" then current.version else pv
      let rel : Release :=
        { project := project, environment := env,
          buildNumber := current.previousBuildNumber, version := prevVersion,
          releasedBy := rolledBackBy, releasedAt := now,
          releaseNotes := "Rollback from build " ++ toString current.buildNumber,
          previousBuildNumber := current.buildNumber }
      let entry : ReleaseIndexEntry :=
        { project := project, environment := env,
          buildNumber := rel.buildNumber, version := prevVersion,
          releasedBy := rolledBackBy, releasedAt := now }
      .ok ({ index := s.index ++ [entry],
             current := fun p e =>
               if p = project ∧ e = env then some rel else s.current p e,
             latestFile := fun p e =>
               if p = project ∧ e = env then some (prevVersion, rel.buildNumber)
               else s.latestFile p e },
           rel)

/-- `ReleaseStore.Get`: the current release for a project/environment. -/
def ReleaseStore.Get (s : ReleaseStoreState) (project env : String) :
    Except String Release :=
  match s.current project env with
  | none => .error ("no release found for " ++ project ++ "/" ++ env)
  | some rel => .ok rel

/-- `ReleaseStore.List`: all release history for a project, in index
(insertion) order. -/
def ReleaseStore.List (s : ReleaseStoreState) (project : String) :
    List ReleaseIndexEntry :=
  s.index.filter (fun e => e.project == project)

/-- `store.BuildFile`. -/
structure BuildFile where
  path : String
  size : Int
  sha256 : String
  mirrorPath : String
deriving DecidableEq, Repr

/-- `store.Build`.  `SourceMeta` (a Go string map) is modelled as an
association list. -/
structure Build where
  project : String
  buildNumber : Int
  uploadedBy : String
  uploadedAt : Nat
  source : String
  sourceRef : String
  sourceMeta : List (String × String)
  files : List BuildFile
deriving DecidableEq, Repr

/-- `store.BuildIndexEntry`, a summary entry in `builds.yaml`. -/
structure BuildIndexEntry where
  project : String
  buildNumber : Int
  uploadedBy : String
  uploadedAt : Nat
  fileCount : Nat
  totalBytes : Int
deriving DecidableEq, Repr

/-- `store.CreateParams`. -/
structure CreateParams where
  project : String
  uploadedBy : String
  source : String
  sourceRef : String
  sourceMeta : List (String × String)
  files : List BuildFile
deriving DecidableEq, Repr

/-- The persistent state a `store.BuildStore` manages: `builds.yaml` and
the per-build `build.yaml` files. -/
structure BuildStoreState where
  index : List BuildIndexEntry
  builds : String → Int → Option Build

/-- The empty data directory a fresh build store starts from. -/
def emptyBuildStore : BuildStoreState :=
  { index := [], builds := fun _ _ => none }

/-- `BuildStore.nextBuildNumber`: one more than the maximum build number
recorded for the project in the index (`max` starts at 0). -/
def BuildStore.nextBuildNumber (idx : List BuildIndexEntry) (project : String) : Int :=
  (idx.foldl
    (fun mx e => if e.project = project ∧ e.buildNumber > mx then e.buildNumber else mx)
    0) + 1

/-- `BuildStore.Create`: assigns the next build number, persists the
per-build record, and appends a summary entry to the index. -/
def BuildStore.Create (s : BuildStoreState) (p : CreateParams) (now : Nat) :
    BuildStoreState × Build :=
  let number := BuildStore.nextBuildNumber s.index p.project
  let build : Build :=
    { project := p.project, buildNumber := number, uploadedBy := p.uploadedBy,
      uploadedAt := now, source := p.source, sourceRef := p.sourceRef,
      sourceMeta := p.sourceMeta, files := p.files }
  let totalBytes : Int := p.files.foldl (fun a f => a + f.size) 0
  let entry : BuildIndexEntry :=
    { project := p.project, buildNumber := number, uploadedBy := p.uploadedBy,
      uploadedAt := now, fileCount := p.files.length, totalBytes := totalBytes }
  ({ index := s.index ++ [entry],
     builds := fun pr n =>
       if pr = p.project ∧ n = number then some build else s.builds pr n },
   build)

/-- `BuildStore.Get`: a specific build by project and number; NotFound
when the per-build file does not exist. -/
def BuildStore.Get (s : BuildStoreState) (project : String) (number : Int) :
    Except String Build :=
  match s.builds project number with
  | none => .error ("build " ++ project ++ "/" ++ toString number ++ " not found")
  | some b => .ok b

/-- `api.latestInfo`, the value type of the in-memory latest map. -/
structure LatestInfo where
  version : String
  buildNumber : Int
deriving DecidableEq, Repr

/-- The `Server`'s mutable state relevant to the protocol: the in-memory
latest map, keyed by the string `project ++ "/" ++ channel` exactly as in
the source. -/
structure ServerState where
  latest : String → Option LatestInfo

/-- A server process whose latest map has no entries yet. -/
def emptyServer : ServerState := { latest := fun _ => none }

/-- `Server.SetLatest`: unconditional overwrite of the latest map entry
for a project/channel. -/
def Server.SetLatest (st : ServerState) (project channel version : String)
    (buildNumber : Int) : ServerState :=
  { latest := fun k =>
      if k = project ++ "/" ++ channel then
        some { version := version, buildNumber := buildNumber }
      else st.latest k }

/-- `api.channelToEnv`. -/
def channelToEnv (channel : String) : String :=
  if channel = "production" then "prod" else channel

/-- `api.envToChannel`. -/
def envToChannel (env : String) : String :=
  if env = "prod" then "production" else env

/-- `Server.GetLatest`: the in-memory map first, then fall back to the
ReleaseStore via the channel→env mapping.  `none` models `(zero, false)`. -/
def Server.GetLatest (st : ServerState) (rs : ReleaseStoreState) (project channel : String) :
    Option LatestInfo :=
  match st.latest (project ++ "/" ++ channel) with
  | some info => some info
  | none =>
    match ReleaseStore.Get rs project (channelToEnv channel) with
    | .error _ => none
    | .ok rel => some { version := rel.version, buildNumber := rel.buildNumber }

/-- The full server-process state the handlers act on. -/
structure SysState where
  builds : BuildStoreState
  releases : ReleaseStoreState
  server : ServerState

/-- `api.validEnvironments` (a Go set literal; lookup of a missing key
yields false). -/
def validEnvironments (e : String) : Bool :=
  e = "dev" || e = "staging" || e = "prod"

/-- `Server.handlePromoteRelease` (handlers_release.go): validates the
request, verifies the build exists, then calls `ReleaseStore.Promote`.
The SSE emit is a fire-and-forget external side effect.  Note that the
handler does not modify `SysState.server` (the in-memory latest map):
the source never calls `SetLatest` on this path. -/
def Server.handlePromoteRelease (sys : SysState) (req : PromoteRequest) (now : Nat) :
    Except String (SysState × Release) :=
  if req.project = "" then .error "project is required"
  else if ¬ validEnvironments req.environment then
    .error ("invalid environment: \"" ++ req.environment ++
      "\" (must be dev, staging, or prod)")
  else if req.buildNumber ≤ 0 then .error "build_number must be positive"
  else if req.version = "" then .error "version is required"
  else
    match BuildStore.Get sys.builds req.project req.buildNumber with
    | .error _ =>
      .error ("build " ++ req.project ++ "/" ++ toString req.buildNumber ++ " not found")
    | .ok _ =>
      let pr := ReleaseStore.Promote sys.releases req now
      .ok ({ sys with releases := pr.1 }, pr.2)

/-- `Server.handleRollbackRelease` (handlers_release.go): validates,
reads the current release (for the SSE event), then calls
`ReleaseStore.Rollback`.  As with promote, the source never calls
`SetLatest` on this path. -/
def Server.handleRollbackRelease (sys : SysState) (project env rolledBackBy : String)
    (now : Nat) : Except String (SysState × Release) :=
  if project = "" then .error "project is required"
  else if ¬ validEnvironments env then .error ("invalid environment: \"" ++ env ++ "\"")
  else
    match ReleaseStore.Get sys.releases project env with
    | .error e => .error e
    | .ok _ =>
      match ReleaseStore.Rollback sys.releases project env rolledBackBy now with
      | .error e => .error e
      | .ok (rs, rel) => .ok ({ sys with releases := rs }, rel)

/-- `api.validNameRe.MatchString`: `^[a-zA-Z0-9][a-zA-Z0-9._-]*$`. -/
def validName (s : String) : Bool :=
  match s.data with
  | [] => false
  | c :: rest =>
    c.isAlphanum && rest.all (fun d => d.isAlphanum || d = '.' || d = '_' || d = '-')

/-- `api.validatePublishParams` (handlers_publish.go). -/
def validatePublishParams (project channel version binary : String) :
    Except String Unit :=
  if ¬ validName project then .error ("invalid project name: \"" ++ project ++ "\"")
  else if channel ≠ "production" ∧ channel ≠ "staging" then
    .error ("invalid channel: \"" ++ channel ++ "\" (must be production or staging)")
  else if ¬ validName version then .error ("invalid version: \"" ++ version ++ "\"")
  else if binary ≠ "" then
    if binary = "finalize" then .error ("binary name \"" ++ binary ++ "\" is reserved")
    else if ¬ validName binary then .error ("invalid binary name: \"" ++ binary ++ "\"")
    else .ok ()
  else .ok ()

/-- `Server.handleFinalize` (handlers_publish.go), store-visible part of
the legacy publish path: after validation and the SHA256SUMS upload to
the mirror (an external collaborator, abstracted away; `files` models
the tracked upload-session hashes), it promotes through the ReleaseStore
with the `BuildNumber` field of `store.PromoteRequest` left at its zero
value, then calls `SetLatest` with build number 0. -/
def Server.handleFinalize (sys : SysState) (project channel version : String)
    (files : List (String × String)) (now : Nat) : Except String SysState :=
  match validatePublishParams project channel version "" with
  | .error e => .error e
  | .ok _ =>
    if files.isEmpty then
      .error "no files uploaded for this version; upload binaries first"
    else
      let cleanVersion := String.mk (trimPrefixV version.data)
      let env := channelToEnv channel
      let pr := ReleaseStore.Promote sys.releases
        { project := project, environment := env, buildNumber := 0,
          version := cleanVersion, releasedBy := "publish-api", releaseNotes := "" } now
      let st := Server.SetLatest sys.server project channel cleanVersion 0
      .ok { sys with releases := pr.1, server := st }

/-- One file-system side effect of a store write path. -/
inductive FsOp where
  | writeFile (path : String) (data : String)
  | rename (src : String) (dst : String)
deriving DecidableEq, Repr

/-- A sequence of file-system operations.  (Named alias so that member
definitions of the store namespaces can refer to it unambiguously.) -/
abbrev FsOps := List FsOp

/-- `store.atomicWriteFile` (write.go): write `path + ".tmp"`, then
rename it over `path`. -/
def atomicWriteFile (path data : String) : List FsOp :=
  [.writeFile (path ++ ".tmp") data, .rename (path ++ ".tmp") path]

/-- `ReleaseStore.indexPath`: `filepath.Join(dataDir, "releases.yaml")`. -/
def ReleaseStore.indexPath (dataDir : String) : String :=
  dataDir ++ "/releases.yaml"

/-- `ReleaseStore.releasePath`. -/
def ReleaseStore.releasePath (dataDir project env : String) : String :=
  dataDir ++ "/releases/" ++ project ++ "/" ++ env ++ "/release.yaml"

/-- The file writes of `ReleaseStore.saveIndex` (release.go): a direct
`os.WriteFile` of the canonical index path. -/
def ReleaseStore.saveIndexOps (dataDir data : String) : FsOps :=
  [.writeFile (ReleaseStore.indexPath dataDir) data]

/-- The file writes of `ReleaseStore.saveRelease` (release.go): a direct
`os.WriteFile` of the canonical per-env release path. -/
def ReleaseStore.saveReleaseOps (dataDir project env data : String) : FsOps :=
  [.writeFile (ReleaseStore.releasePath dataDir project env) data]

/-- The file writes of `ReleaseStore.writeLatestJSON` (release.go): a
direct `os.WriteFile` of `<fileDir>/<project>/<env>/latest.json`. -/
def ReleaseStore.writeLatestJSONOps (fileDir project env data : String) : FsOps :=
  [.writeFile (fileDir ++ "/" ++ project ++ "/" ++ env ++ "/latest.json") data]

/-- `BuildStore.indexPath`. -/
def BuildStore.indexPath (dataDir : String) : String :=
  dataDir ++ "/builds.yaml"

/-- `BuildStore.buildPath`. -/
def BuildStore.buildPath (dataDir project : String) (number : Int) : String :=
  dataDir ++ "/builds/" ++ project ++ "/" ++ toString number ++ "/build.yaml"

/-- The file writes of `BuildStore.saveIndex` (build.go): an
`atomicWriteFile` of the index path. -/
def BuildStore.saveIndexOps (dataDir data : String) : List FsOp :=
  atomicWriteFile (BuildStore.indexPath dataDir) data

/-- The file writes of `BuildStore.Create` (build.go): `atomicWriteFile`
of the per-build record, then `saveIndex`. -/
def BuildStore.createWriteOps (dataDir project : String) (number : Int)
    (buildData indexData : String) : List FsOp :=
  atomicWriteFile (BuildStore.buildPath dataDir project number) buildData ++
    BuildStore.saveIndexOps dataDir indexData

/-- A release with no previous build, and a store whose only state is
that release being current for demo/prod. -/
def c8rel : Release :=
  { project := "demo", environment := "prod", buildNumber := 1, version := "1.0.0",
    releasedBy := "op", releasedAt := 1, releaseNotes := "", previousBuildNumber := 0 }

def c8store : ReleaseStoreState :=
  { index := [⟨"demo", "prod", 1, "1.0.0", "op", 1⟩],
    current := fun p e => if p = "demo" ∧ e = "prod" then some c8rel else none,
    latestFile := fun _ _ => none }

/-- One mutating release-store call, as issued by the HTTP layer. -/
inductive StoreOp where
  | promote (req : PromoteRequest) (now : Nat)
  | rollback (project env rolledBackBy : String) (now : Nat)
deriving Repr

/-- A sequence of mutating store calls.  (Named alias so that member
definitions of the `ReleaseStore` namespace can refer to it.) -/
abbrev StoreOps := List StoreOp

/-- The project a store operation concerns. -/
def StoreOp.project : StoreOp → String
  | .promote req _ => req.project
  | .rollback p _ _ _ => p

/-- Apply one mutating operation; `none` when the operation fails (a
failed rollback leaves no successor state). -/
def ReleaseStore.applyOp (s : ReleaseStoreState) : StoreOp → Option ReleaseStoreState
  | .promote req now => some (ReleaseStore.Promote s req now).1
  | .rollback p e rb now =>
    match ReleaseStore.Rollback s p e rb now with
    | .ok x => some x.1
    | .error _ => none

/-- Run a sequence of mutating operations, requiring every one of them to
succeed. -/
def ReleaseStore.runOps (s : ReleaseStoreState) : StoreOps → Option ReleaseStoreState
  | [] => some s
  | op :: rest =>
    match ReleaseStore.applyOp s op with
    | some s1 => ReleaseStore.runOps s1 rest
    | none => none

/-- Three successful operations for project demo: two promotes and one
rollback. -/
def c7ops : StoreOps :=
  [.promote ⟨"demo", "prod", 1, "1.0.0", "op", ""⟩ 1,
   .promote ⟨"demo", "prod", 2, "1.1.0", "op", ""⟩ 2,
   .rollback "demo" "prod" "op" 3]

/-- The state after running `c7ops` from an empty store. -/
def c7final : ReleaseStoreState :=
  (ReleaseStore.runOps emptyReleaseStore c7ops).getD emptyReleaseStore

/-- The running maximum that `nextBuildNumber` computes (the body of its
loop, as a fold). -/
def buildMax (idx : List BuildIndexEntry) (project : String) : Int :=
  idx.foldl
    (fun mx e => if e.project = project ∧ e.buildNumber > mx then e.buildNumber else mx)
    0

/-- N consecutive `Create` calls with the same parameters, returning the
final state and the build numbers assigned in call order. -/
def BuildStore.createMany (s : BuildStoreState) (p : CreateParams) (now : Nat) :
    Nat → BuildStoreState × List Int
  | 0 => (s, [])
  | Nat.succ n =>
    let r := BuildStore.Create s p now
    let rest := BuildStore.createMany r.1 p now n
    (rest.1, r.2.buildNumber :: rest.2)

/-- Concrete parameters for the C6 witness. -/
def c6p : CreateParams := ⟨"app", "ci", "", "", [], []⟩

def c6q : CreateParams := ⟨"other", "ci", "", "", [], []⟩

/-- The store state after Promote(demo, prod, 1, "1.0.0") and
Promote(demo, prod, 2, "1.1.0") from an empty data directory. -/
def c2s2 : ReleaseStoreState :=
  (ReleaseStore.Promote
    ((ReleaseStore.Promote emptyReleaseStore ⟨"demo", "prod", 1, "1.0.0", "op", ""⟩ 1).1)
    ⟨"demo", "prod", 2, "1.1.0", "op", ""⟩ 2).1

/-- The store state after Promote(demo, prod, 1, "1.0.0") followed by a
promote with build number 0 — exactly what the legacy publish finalize
path performs through `ReleaseStore.Promote` (its `PromoteRequest` leaves
`BuildNumber` at the zero value). -/
def c3s2 : ReleaseStoreState :=
  (ReleaseStore.Promote
    ((ReleaseStore.Promote emptyReleaseStore ⟨"demo", "prod", 1, "1.0.0", "op", ""⟩ 1).1)
    ⟨"demo", "prod", 0, "0.9", "publish-api", ""⟩ 2).1

/-- A freshly started server process over empty stores. -/
def emptySys : SysState :=
  { builds := emptyBuildStore, releases := emptyReleaseStore, server := emptyServer }

/-- The system state a successful concrete finalize produces. -/
def c10final : SysState :=
  match Server.handleFinalize emptySys "demo" "production" "v1.2.3" [("app", "h")] 9 with
  | .ok s => s
  | .error _ => emptySys

/-- The release current for demo/prod before the promote (build 1,
version 1.0.0). -/
def c1rel : Release :=
  { project := "demo", environment := "prod", buildNumber := 1, version := "1.0.0",
    releasedBy := "op", releasedAt := 1, releaseNotes := "", previousBuildNumber := 0 }

/-- Build demo/2, registered so the promote handler's existence check
passes. -/
def c1build : Build :=
  { project := "demo", buildNumber := 2, uploadedBy := "ci", uploadedAt := 5,
    source := "", sourceRef := "", sourceMeta := [], files := [] }

/-- A running server: build demo/2 exists, demo/prod currently serves
build 1 / 1.0.0, and the in-memory latest map holds the corresponding
entry for demo/production — exactly what `InitLatest` seeds at startup
from the current releases (and what `GetLatest`'s hot path reads). -/
def c1sys : SysState :=
  { builds :=
      { index := [⟨"demo", 2, "ci", 5, 0, 0⟩],
        builds := fun p n => if p = "demo" ∧ n = 2 then some c1build else none },
    releases :=
      { index := [⟨"demo", "prod", 1, "1.0.0", "op", 1⟩],
        current := fun p e => if p = "demo" ∧ e = "prod" then some c1rel else none,
        latestFile := fun p e =>
          if p = "demo" ∧ e = "prod" then some ("1.0.0", 1) else none },
    server :=
      { latest := fun k =>
          if k = "demo/production" then some ⟨"1.0.0", 1⟩ else none } }

/-- `ops` writes `target` directly under its canonical name. -/
def writesCanonicalDirectly (ops : FsOps) (target : String) : Prop :=
  ∃ d, FsOp.writeFile target d ∈ ops

/-- `ops` replaces `target` atomically: it never writes the canonical
name directly, and it writes a same-directory temporary file and renames
it over the target. -/
def atomicallyReplaces (ops : FsOps) (target : String) : Prop :=
  (∀ d, FsOp.writeFile target d ∉ ops) ∧
  ∃ d, FsOp.writeFile (target ++ ".tmp") d ∈ ops ∧
    FsOp.rename (target ++ ".tmp") target ∈ ops

/-! ## Theorems -/

example : Compare "1.0.0" "1.0.0" = 0 := by decide

example : Compare "2.0.0" "1.9.9" = 1 := by decide

example : Compare "v1.2.0" "1.2.0" = 0 := by decide

example : Compare "1.0" "1.0.0" = 0 := by decide

example : Compare "1.0.0-beta" "1.0.0" = 0 := by decide

example : Compare "1.0.0" "1.0.1" = -1 := by decide

example : IsNewer "1.1.0" "1.0.0" = true := by decide

lemma cmpPad_nil_right (xs : List Int) : cmpPad xs [] = cmpPadEmptyRight xs := by
  cases xs <;> rfl

lemma cmpPad_nil_left (ys : List Int) : cmpPad [] ys = cmpPadEmptyLeft ys := by
  cases ys <;> rfl

/-- One step of the comparison loop, with a missing head reading as 0. -/
lemma cmpPad_unfold (xs ys : List Int) (h : ¬(xs = [] ∧ ys = [])) :
    cmpPad xs ys =
      if xs.headD 0 > ys.headD 0 then 1
      else if xs.headD 0 < ys.headD 0 then -1
      else cmpPad xs.tail ys.tail := by
  match xs, ys with
  | [], [] => exact absurd ⟨rfl, rfl⟩ h
  | [], y :: ys => simp [cmpPad, cmpPadEmptyLeft]
  | x :: xs, [] =>
    simp only [cmpPad, cmpPadEmptyRight, List.headD_cons, List.headD_nil,
      List.tail_cons, List.tail_nil, cmpPad_nil_right]
  | x :: xs, y :: ys => rfl

lemma cmpPad_self (l : List Int) : cmpPad l l = 0 := by
  induction l with
  | nil => rfl
  | cons x xs ih => simpa [cmpPad] using ih

lemma cmpPadEmptyLeft_eq_neg (ys : List Int) :
    cmpPadEmptyLeft ys = -cmpPadEmptyRight ys := by
  induction ys with
  | nil => rfl
  | cons y ys ih =>
    simp only [cmpPadEmptyLeft, cmpPadEmptyRight]
    split_ifs <;> omega

lemma cmpPad_antisymm (xs : List Int) : ∀ ys, cmpPad xs ys = -cmpPad ys xs := by
  induction xs with
  | nil =>
    intro ys
    rw [cmpPad_nil_left, cmpPad_nil_right]
    exact cmpPadEmptyLeft_eq_neg ys
  | cons x xs ih =>
    intro ys
    cases ys with
    | nil =>
      rw [cmpPad_nil_right, cmpPad_nil_left, cmpPadEmptyLeft_eq_neg]
      omega
    | cons y ys =>
      have h := ih ys
      simp only [cmpPad]
      split_ifs <;> omega

lemma cmpPadEmptyLeft_vals (ys : List Int) :
    cmpPadEmptyLeft ys = 1 ∨ cmpPadEmptyLeft ys = 0 ∨ cmpPadEmptyLeft ys = -1 := by
  induction ys with
  | nil => simp [cmpPadEmptyLeft]
  | cons y ys ih =>
    simp only [cmpPadEmptyLeft]
    split_ifs <;> simp [ih]

lemma cmpPadEmptyRight_vals (xs : List Int) :
    cmpPadEmptyRight xs = 1 ∨ cmpPadEmptyRight xs = 0 ∨ cmpPadEmptyRight xs = -1 := by
  induction xs with
  | nil => simp [cmpPadEmptyRight]
  | cons x xs ih =>
    simp only [cmpPadEmptyRight]
    split_ifs <;> simp [ih]

lemma cmpPad_vals (xs : List Int) :
    ∀ ys, cmpPad xs ys = 1 ∨ cmpPad xs ys = 0 ∨ cmpPad xs ys = -1 := by
  induction xs with
  | nil => intro ys; rw [cmpPad_nil_left]; exact cmpPadEmptyLeft_vals ys
  | cons x xs ih =>
    intro ys
    cases ys with
    | nil => rw [cmpPad_nil_right]; exact cmpPadEmptyRight_vals _
    | cons y ys =>
      simp only [cmpPad]
      split_ifs <;> simp [ih]

lemma cmpPad_trans :
    ∀ a b c : List Int, cmpPad a b = 1 → cmpPad b c = 1 → cmpPad a c = 1 := by
  suffices H : ∀ n (a b c : List Int), a.length + b.length + c.length ≤ n →
      cmpPad a b = 1 → cmpPad b c = 1 → cmpPad a c = 1 by
    intro a b c
    exact H (a.length + b.length + c.length) a b c le_rfl
  intro n
  induction n with
  | zero =>
    intro a b c hlen h1 _
    have ha : a = [] := List.length_eq_zero.mp (by omega)
    have hb : b = [] := List.length_eq_zero.mp (by omega)
    rw [ha, hb] at h1
    simp [cmpPad, cmpPadEmptyLeft] at h1
  | succ n ih =>
    intro a b c hlen h1 h2
    by_cases hab : a = [] ∧ b = []
    · rw [hab.1, hab.2] at h1
      simp [cmpPad, cmpPadEmptyLeft] at h1
    by_cases hbc : b = [] ∧ c = []
    · rw [hbc.1, hbc.2] at h2
      simp [cmpPad, cmpPadEmptyLeft] at h2
    by_cases hac : a = [] ∧ c = []
    · exfalso
      rw [hac.1, cmpPad_nil_left] at h1
      rw [hac.2, cmpPad_nil_right] at h2
      have := cmpPadEmptyLeft_eq_neg b
      omega
    · rw [cmpPad_unfold a b hab] at h1
      rw [cmpPad_unfold b c hbc] at h2
      rw [cmpPad_unfold a c hac]
      have hlen' : a.tail.length + b.tail.length + c.tail.length ≤ n := by
        have hpos : 1 ≤ a.length + b.length := by
          rcases Classical.em (a = []) with h | h
          · have : b ≠ [] := fun hb => hab ⟨h, hb⟩
            have : b.length ≠ 0 := fun hb => this (List.length_eq_zero.mp hb)
            omega
          · have : a.length ≠ 0 := fun ha => h (List.length_eq_zero.mp ha)
            omega
        have ta : a.tail.length = a.length - 1 := List.length_tail a
        have tb : b.tail.length = b.length - 1 := List.length_tail b
        have tc : c.tail.length = c.length - 1 := List.length_tail c
        omega
      split_ifs at h1 with hgt1 hlt1 <;> split_ifs at h2 with hgt2 hlt2 <;>
        try omega
      -- remaining case: heads equal on both sides, recurse on the tails
      rw [if_neg (by omega), if_neg (by omega)]
      exact ih a.tail b.tail c.tail hlen' h1 h2

/-- C9: `version.Compare` behaves as a total order on version strings:
it is reflexively 0, antisymmetric, and transitive on strict comparison. -/
theorem Compare_total_order :
    (∀ a, Compare a a = 0) ∧
    (∀ a b, Compare a b = -Compare b a) ∧
    (∀ a b c, Compare a b > 0 → Compare b c > 0 → Compare a c > 0) := by
  refine ⟨fun a => cmpPad_self _, fun a b => cmpPad_antisymm _ _, fun a b c h1 h2 => ?_⟩
  have v1 := cmpPad_vals (verKey a) (verKey b)
  have v2 := cmpPad_vals (verKey b) (verKey c)
  have h1' : cmpPad (verKey a) (verKey b) > 0 := h1
  have h2' : cmpPad (verKey b) (verKey c) > 0 := h2
  have e1 : cmpPad (verKey a) (verKey b) = 1 := by omega
  have e2 : cmpPad (verKey b) (verKey c) = 1 := by omega
  have h3 := cmpPad_trans (verKey a) (verKey b) (verKey c) e1 e2
  show cmpPad (verKey a) (verKey c) > 0
  omega

/-- Witness for C9 at concrete version strings. -/
theorem Compare_total_order_witness :
    Compare "3.1.0" "3.1.0" = 0 ∧
    Compare "2.0.0" "1.4.0" = -Compare "1.4.0" "2.0.0" ∧
    Compare "3.1.0" "1.4.0" > 0 :=
  ⟨Compare_total_order.1 "3.1.0",
   Compare_total_order.2.1 "2.0.0" "1.4.0",
   Compare_total_order.2.2 "3.1.0" "2.0.0" "1.4.0" (by decide) (by decide)⟩

lemma promote_current_self (s : ReleaseStoreState) (req : PromoteRequest) (now : Nat) :
    (ReleaseStore.Promote s req now).1.current req.project req.environment =
      some (ReleaseStore.Promote s req now).2 := by
  simp [ReleaseStore.Promote]

lemma promote_current_other (s : ReleaseStoreState) (req : PromoteRequest) (now : Nat)
    (p e : String) (h : ¬(p = req.project ∧ e = req.environment)) :
    (ReleaseStore.Promote s req now).1.current p e = s.current p e := by
  simp [ReleaseStore.Promote, h]

lemma promote_snd (s : ReleaseStoreState) (req : PromoteRequest) (now : Nat) :
    (ReleaseStore.Promote s req now).2 =
      { project := req.project, environment := req.environment,
        buildNumber := req.buildNumber, version := req.version,
        releasedBy := req.releasedBy, releasedAt := now,
        releaseNotes := req.releaseNotes,
        previousBuildNumber :=
          match s.current req.project req.environment with
          | some c => c.buildNumber
          | none => 0 } := rfl

lemma promote_index (s : ReleaseStoreState) (req : PromoteRequest) (now : Nat) :
    (ReleaseStore.Promote s req now).1.index =
      s.index ++ [⟨req.project, req.environment, req.buildNumber, req.version,
        req.releasedBy, now⟩] := rfl

/-- The success case of `Rollback`, spelled out. -/
lemma rollback_ok_eq (s : ReleaseStoreState) (p e rb : String) (now : Nat) (cur : Release)
    (hc : s.current p e = some cur) (h0 : cur.previousBuildNumber ≠ 0) :
    ReleaseStore.Rollback s p e rb now =
      (let pv := scanPrevVersion s.index p e cur.previousBuildNumber
       let prevVersion := if pv = "" then cur.version else pv
       let rel : Release :=
         { project := p, environment := e,
           buildNumber := cur.previousBuildNumber, version := prevVersion,
           releasedBy := rb, releasedAt := now,
           releaseNotes := "Rollback from build " ++ toString cur.buildNumber,
           previousBuildNumber := cur.buildNumber }
       .ok ({ index := s.index ++ [⟨p, e, cur.previousBuildNumber, prevVersion, rb, now⟩],
              current := fun p' e' =>
                if p' = p ∧ e' = e then some rel else s.current p' e',
              latestFile := fun p' e' =>
                if p' = p ∧ e' = e then some (prevVersion, cur.previousBuildNumber)
                else s.latestFile p' e' },
            rel)) := by
  unfold ReleaseStore.Rollback
  rw [hc]
  simp only [if_neg h0]

lemma scanPrevVersion_append_match (entries : List ReleaseIndexEntry) (p e : String)
    (bn : Int) (entry : ReleaseIndexEntry)
    (h1 : entry.project = p) (h2 : entry.environment = e) (h3 : entry.buildNumber = bn) :
    scanPrevVersion (entries ++ [entry]) p e bn = entry.version := by
  simp [scanPrevVersion, List.find?_cons, h1, h2, h3]

lemma scanPrevVersion_append_nomatch (entries : List ReleaseIndexEntry) (p e : String)
    (bn : Int) (entry : ReleaseIndexEntry)
    (h : ¬(entry.project = p ∧ entry.environment = e ∧ entry.buildNumber = bn)) :
    scanPrevVersion (entries ++ [entry]) p e bn = scanPrevVersion entries p e bn := by
  have hfalse : (entry.project == p && entry.environment == e && entry.buildNumber == bn)
      = false := by
    rcases Classical.em (entry.project = p) with h1 | h1
    · rcases Classical.em (entry.environment = e) with h2 | h2
      · have h3 : entry.buildNumber ≠ bn := fun h3 => h ⟨h1, h2, h3⟩
        simp [h1, h2, h3]
      · simp [h2]
    · simp [h1]
  simp [scanPrevVersion, List.find?_cons, hfalse]

/-- C5: after a successful `Promote(p, e, b, v, ...)`, `Get(p, e)` returns
the promoted release, whose `build_number` and `version` match the
request and whose `previous_build_number` is the previously current
release's build number (0 when none existed). -/
theorem promote_then_get (s : ReleaseStoreState) (req : PromoteRequest) (now : Nat) :
    ReleaseStore.Get (ReleaseStore.Promote s req now).1 req.project req.environment =
      .ok (ReleaseStore.Promote s req now).2 ∧
    (ReleaseStore.Promote s req now).2.buildNumber = req.buildNumber ∧
    (ReleaseStore.Promote s req now).2.version = req.version ∧
    (ReleaseStore.Promote s req now).2.previousBuildNumber =
      (match s.current req.project req.environment with
       | some c => c.buildNumber
       | none => 0) := by
  refine ⟨?_, rfl, rfl, rfl⟩
  rw [ReleaseStore.Get, promote_current_self]

lemma rollback_none_error (s : ReleaseStoreState) (p e rb : String) (now : Nat)
    (h : s.current p e = none) :
    ReleaseStore.Rollback s p e rb now =
      .error ("no release found for " ++ p ++ "/" ++ e) := by
  unfold ReleaseStore.Rollback
  rw [h]

lemma rollback_prev_zero_error (s : ReleaseStoreState) (p e rb : String) (now : Nat)
    (cur : Release) (h : s.current p e = some cur)
    (h0 : cur.previousBuildNumber = 0) :
    ReleaseStore.Rollback s p e rb now =
      .error ("no previous build to roll back to for " ++ p ++ "/" ++ e) := by
  unfold ReleaseStore.Rollback
  rw [h]
  simp only [if_pos h0]

/-- C8: `Rollback` fails with the "no release found" error when no
current release exists, and with the "no previous build" error when the
current release's `previous_build_number` is 0.  In the Go source both
error returns happen before any file is written, which the embedding
reflects by returning the error without producing a successor state: the
index, the per-env release record and latest.json are untouched. -/
theorem rollback_precondition_failures (s : ReleaseStoreState) (p e rb : String)
    (now : Nat) :
    (s.current p e = none →
      ReleaseStore.Rollback s p e rb now =
        .error ("no release found for " ++ p ++ "/" ++ e)) ∧
    (∀ cur, s.current p e = some cur → cur.previousBuildNumber = 0 →
      ReleaseStore.Rollback s p e rb now =
        .error ("no previous build to roll back to for " ++ p ++ "/" ++ e)) :=
  ⟨rollback_none_error s p e rb now,
   fun cur => rollback_prev_zero_error s p e rb now cur⟩

/-- Witness for C8: both failure modes at concrete inputs. -/
theorem rollback_precondition_failures_witness :
    ReleaseStore.Rollback emptyReleaseStore "demo" "prod" "op" 5 =
      .error "no release found for demo/prod" ∧
    ReleaseStore.Rollback c8store "demo" "prod" "op" 5 =
      .error "no previous build to roll back to for demo/prod" :=
  ⟨(rollback_precondition_failures emptyReleaseStore "demo" "prod" "op" 5).1 rfl,
   (rollback_precondition_failures c8store "demo" "prod" "op" 5).2 c8rel (by simp [c8store]) rfl⟩

lemma rollback_index_append (s : ReleaseStoreState) (p e rb : String) (now : Nat)
    (s' : ReleaseStoreState) (r : Release)
    (h : ReleaseStore.Rollback s p e rb now = .ok (s', r)) :
    s'.index = s.index ++ [⟨p, e, r.buildNumber, r.version, rb, now⟩] := by
  cases hc : s.current p e with
  | none =>
    rw [rollback_none_error s p e rb now hc] at h
    exact absurd h (by simp)
  | some cur =>
    by_cases h0 : cur.previousBuildNumber = 0
    · rw [rollback_prev_zero_error s p e rb now cur hc h0] at h
      exact absurd h (by simp)
    · rw [rollback_ok_eq s p e rb now cur hc h0] at h
      simp only [Except.ok.injEq, Prod.mk.injEq] at h
      obtain ⟨hs, hr⟩ := h
      rw [← hs, ← hr]

lemma applyOp_index (s : ReleaseStoreState) (op : StoreOp) (s1 : ReleaseStoreState)
    (h : ReleaseStore.applyOp s op = some s1) :
    ∃ entry : ReleaseIndexEntry,
      s1.index = s.index ++ [entry] ∧ entry.project = StoreOp.project op := by
  cases op with
  | promote req now =>
    simp only [ReleaseStore.applyOp, Option.some.injEq] at h
    subst h
    exact ⟨_, promote_index s req now, rfl⟩
  | rollback p e rb now =>
    simp only [ReleaseStore.applyOp] at h
    cases hr : ReleaseStore.Rollback s p e rb now with
    | error m => rw [hr] at h; exact absurd h (by simp)
    | ok x =>
      rw [hr] at h
      simp only [Option.some.injEq] at h
      subst h
      exact ⟨_, rollback_index_append s p e rb now x.1 x.2 (by rw [hr]), rfl⟩

/-- C7: every successful promote appends exactly one entry to the release
index, every successful rollback appends exactly one entry, and a run of
k successful operations for a project extends the index (never editing
existing entries) and grows `List(project)` by exactly k entries. -/
theorem history_append_only :
    (∀ s req now, (ReleaseStore.Promote s req now).1.index =
      s.index ++ [⟨req.project, req.environment, req.buildNumber, req.version,
        req.releasedBy, now⟩]) ∧
    (∀ s p e rb now s' r, ReleaseStore.Rollback s p e rb now = .ok (s', r) →
      s'.index = s.index ++ [⟨p, e, r.buildNumber, r.version, rb, now⟩]) ∧
    (∀ ops s s', ReleaseStore.runOps s ops = some s' → ∀ proj,
      (∃ t, s'.index = s.index ++ t) ∧
      (ReleaseStore.List s' proj).length =
        (ReleaseStore.List s proj).length +
          (ops.filter (fun op => StoreOp.project op == proj)).length) := by
  refine ⟨fun s req now => promote_index s req now, rollback_index_append, ?_⟩
  intro ops
  induction ops with
  | nil =>
    intro s s' h proj
    simp only [ReleaseStore.runOps, Option.some.injEq] at h
    subst h
    exact ⟨⟨[], by simp⟩, by simp⟩
  | cons op rest ih =>
    intro s s' h proj
    simp only [ReleaseStore.runOps] at h
    cases hap : ReleaseStore.applyOp s op with
    | none => rw [hap] at h; exact absurd h (by simp)
    | some s1 =>
      rw [hap] at h
      obtain ⟨⟨t, ht⟩, hlen⟩ := ih s1 s' h proj
      obtain ⟨entry, hstep, hproj⟩ := applyOp_index s op s1 hap
      refine ⟨⟨[entry] ++ t, by rw [ht, hstep, List.append_assoc]⟩, ?_⟩
      have l1 : (ReleaseStore.List s1 proj).length =
          (ReleaseStore.List s proj).length + (if entry.project == proj then 1 else 0) := by
        unfold ReleaseStore.List
        rw [hstep, List.filter_append]
        by_cases hpe : entry.project = proj <;> simp [hpe]
      rw [hlen, l1, List.filter_cons, hproj]
      by_cases hp : StoreOp.project op = proj
      · simp [hp]
        omega
      · simp [hp]

/-- Witness for C7: all three operations succeed and `List("demo")`
afterwards has exactly 3 entries. -/
theorem history_append_only_witness :
    ReleaseStore.runOps emptyReleaseStore c7ops = some c7final ∧
    (ReleaseStore.List c7final "demo").length =
      (ReleaseStore.List emptyReleaseStore "demo").length +
        (c7ops.filter (fun op => StoreOp.project op == "demo")).length ∧
    (ReleaseStore.List c7final "demo").length = 3 :=
  ⟨rfl,
   (history_append_only.2.2 c7ops emptyReleaseStore c7final rfl "demo").2,
   by rfl⟩

lemma nextBuildNumber_eq_buildMax (idx : List BuildIndexEntry) (project : String) :
    BuildStore.nextBuildNumber idx project = buildMax idx project + 1 := rfl

lemma buildMax_append_one (idx : List BuildIndexEntry) (e : BuildIndexEntry)
    (project : String) :
    buildMax (idx ++ [e]) project =
      if e.project = project ∧ e.buildNumber > buildMax idx project then e.buildNumber
      else buildMax idx project := by
  unfold buildMax
  rw [List.foldl_append]
  rfl

lemma buildMax_of_no_entries (idx : List BuildIndexEntry) (project : String)
    (h : ∀ e ∈ idx, e.project ≠ project) : buildMax idx project = 0 := by
  unfold buildMax
  induction idx with
  | nil => rfl
  | cons e rest ih =>
    have he : e.project ≠ project := h e (by simp)
    simp only [List.foldl_cons, he, false_and, if_false]
    exact ih (fun x hx => h x (by simp [hx]))

lemma create_buildNumber (s : BuildStoreState) (p : CreateParams) (now : Nat) :
    (BuildStore.Create s p now).2.buildNumber = buildMax s.index p.project + 1 := rfl

lemma create_index (s : BuildStoreState) (p : CreateParams) (now : Nat) :
    (BuildStore.Create s p now).1.index =
      s.index ++ [⟨p.project, buildMax s.index p.project + 1, p.uploadedBy, now,
        p.files.length, p.files.foldl (fun a f => a + f.size) 0⟩] := rfl

lemma buildMax_after_create (s : BuildStoreState) (p : CreateParams) (now : Nat) :
    buildMax (BuildStore.Create s p now).1.index p.project =
      buildMax s.index p.project + 1 := by
  rw [create_index, buildMax_append_one]
  simp

lemma buildMax_after_create_other (s : BuildStoreState) (p : CreateParams) (now : Nat)
    (proj : String) (h : p.project ≠ proj) :
    buildMax (BuildStore.Create s p now).1.index proj = buildMax s.index proj := by
  rw [create_index, buildMax_append_one]
  simp [h]

lemma createMany_numbers (p : CreateParams) (now : Nat) :
    ∀ (N : Nat) (s : BuildStoreState),
      (BuildStore.createMany s p now N).2 =
        (List.range N).map (fun i : Nat => buildMax s.index p.project + 1 + (i : Int)) := by
  intro N
  induction N with
  | zero => intro s; rfl
  | succ n ih =>
    intro s
    show (BuildStore.Create s p now).2.buildNumber ::
        (BuildStore.createMany (BuildStore.Create s p now).1 p now n).2 = _
    rw [create_buildNumber, ih, buildMax_after_create, List.range_succ_eq_map,
      List.map_cons, List.map_map]
    refine congrArg₂ _ (by omega) (List.map_congr_left fun a _ => ?_)
    simp only [Function.comp_apply]
    push_cast
    omega

/-- C6: starting from a state with no builds recorded for project `p`,
N successive `Create` calls assign exactly the build numbers 1..N in
call order, and a `Create` for a different project leaves the next build
number of `p` unchanged. -/
theorem build_numbering (s : BuildStoreState) (p q : CreateParams)
    (now now2 : Nat) (N : Nat)
    (hfresh : ∀ e ∈ s.index, e.project ≠ p.project)
    (hdiff : q.project ≠ p.project) :
    (BuildStore.createMany s p now N).2 =
      (List.range N).map (fun i : Nat => (i : Int) + 1) ∧
    BuildStore.nextBuildNumber (BuildStore.Create s q now2).1.index p.project =
      BuildStore.nextBuildNumber s.index p.project := by
  constructor
  · rw [createMany_numbers, buildMax_of_no_entries s.index p.project hfresh]
    exact List.map_congr_left fun a _ => by omega
  · rw [nextBuildNumber_eq_buildMax, nextBuildNumber_eq_buildMax,
      buildMax_after_create_other s q now2 p.project hdiff]

/-- Witness for C6: three creates on a fresh project yield [1, 2, 3], and
a create in another project does not disturb the counter. -/
theorem build_numbering_witness :
    (∀ e ∈ emptyBuildStore.index, e.project ≠ c6p.project) ∧
    c6q.project ≠ c6p.project ∧
    ((BuildStore.createMany emptyBuildStore c6p 7 3).2 =
        (List.range 3).map (fun i : Nat => (i : Int) + 1) ∧
      BuildStore.nextBuildNumber (BuildStore.Create emptyBuildStore c6q 8).1.index
          c6p.project =
        BuildStore.nextBuildNumber emptyBuildStore.index c6p.project) :=
  ⟨fun e he => absurd he (by simp [emptyBuildStore]),
   by decide,
   build_numbering emptyBuildStore c6p c6q 7 8 3
     (fun e he => absurd he (by simp [emptyBuildStore])) (by decide)⟩

/-- The success case of `Rollback`, as field facts. -/
lemma rollback_ok_fields (s : ReleaseStoreState) (p e rb : String) (now : Nat)
    (cur : Release) (hc : s.current p e = some cur)
    (h0 : cur.previousBuildNumber ≠ 0) :
    ∃ s' r, ReleaseStore.Rollback s p e rb now = .ok (s', r) ∧
      r.buildNumber = cur.previousBuildNumber ∧
      r.previousBuildNumber = cur.buildNumber ∧
      r.version = (if scanPrevVersion s.index p e cur.previousBuildNumber = ""
                   then cur.version
                   else scanPrevVersion s.index p e cur.previousBuildNumber) ∧
      s'.current p e = some r ∧
      s'.index = s.index ++ [⟨p, e, cur.previousBuildNumber, r.version, rb, now⟩] := by
  refine ⟨_, _, rollback_ok_eq s p e rb now cur hc h0, rfl, rfl, rfl, by simp, rfl⟩

/-- After Promote(b1, v1) then Promote(b2, v2) on any starting state,
a first rollback succeeds and yields build b1, and a second rollback on
the result also succeeds, yielding build b2 with previous build b1 — and
(when v2 is nonempty) version v2. -/
lemma double_promote_double_rollback
    (s : ReleaseStoreState) (p e v1 v2 u1 u2 notes1 notes2 rb1 rb2 : String)
    (b1 b2 : Int) (n1 n2 n3 n4 : Nat)
    (hb1 : b1 ≠ 0) (hb2 : b2 ≠ 0) :
    ∃ s3 r3 s4 r4,
      ReleaseStore.Rollback
          (ReleaseStore.Promote
            ((ReleaseStore.Promote s ⟨p, e, b1, v1, u1, notes1⟩ n1).1)
            ⟨p, e, b2, v2, u2, notes2⟩ n2).1 p e rb1 n3 = .ok (s3, r3) ∧
      r3.buildNumber = b1 ∧ r3.previousBuildNumber = b2 ∧
      s3.current p e = some r3 ∧
      ReleaseStore.Rollback s3 p e rb2 n4 = .ok (s4, r4) ∧
      r4.buildNumber = b2 ∧ r4.previousBuildNumber = b1 ∧
      s4.current p e = some r4 ∧
      (v2 ≠ "" → r4.version = v2) := by
  have hc1 : ((ReleaseStore.Promote s ⟨p, e, b1, v1, u1, notes1⟩ n1).1).current p e =
      some (ReleaseStore.Promote s ⟨p, e, b1, v1, u1, notes1⟩ n1).2 :=
    promote_current_self s ⟨p, e, b1, v1, u1, notes1⟩ n1
  have hc2 : ((ReleaseStore.Promote
        ((ReleaseStore.Promote s ⟨p, e, b1, v1, u1, notes1⟩ n1).1)
        ⟨p, e, b2, v2, u2, notes2⟩ n2).1).current p e =
      some (ReleaseStore.Promote
        ((ReleaseStore.Promote s ⟨p, e, b1, v1, u1, notes1⟩ n1).1)
        ⟨p, e, b2, v2, u2, notes2⟩ n2).2 :=
    promote_current_self _ ⟨p, e, b2, v2, u2, notes2⟩ n2
  have hprev2 : (ReleaseStore.Promote
        ((ReleaseStore.Promote s ⟨p, e, b1, v1, u1, notes1⟩ n1).1)
        ⟨p, e, b2, v2, u2, notes2⟩ n2).2.previousBuildNumber = b1 := by
    show (match ((ReleaseStore.Promote s ⟨p, e, b1, v1, u1, notes1⟩ n1).1).current p e with
      | some c => c.buildNumber
      | none => 0) = b1
    rw [hc1]
    rfl
  have hprev2ne : (ReleaseStore.Promote
        ((ReleaseStore.Promote s ⟨p, e, b1, v1, u1, notes1⟩ n1).1)
        ⟨p, e, b2, v2, u2, notes2⟩ n2).2.previousBuildNumber ≠ 0 := by
    rw [hprev2]; exact hb1
  obtain ⟨s3, r3, heq3, h3b, h3p, h3v, h3c, h3i⟩ :=
    rollback_ok_fields _ p e rb1 n3 _ hc2 hprev2ne
  have h3bn : r3.buildNumber = b1 := by rw [h3b, hprev2]
  have h3prev : r3.previousBuildNumber = b2 := h3p
  have h3pne : r3.previousBuildNumber ≠ 0 := by rw [h3prev]; exact hb2
  obtain ⟨s4, r4, heq4, h4b, h4p, h4v, h4c, _⟩ :=
    rollback_ok_fields s3 p e rb2 n4 r3 h3c h3pne
  have h4bn : r4.buildNumber = b2 := by rw [h4b, h3prev]
  have h4pn : r4.previousBuildNumber = b1 := by rw [h4p, h3bn]
  refine ⟨s3, r3, s4, r4, heq3, h3bn, h3prev, h3c, heq4, h4bn, h4pn, h4c, ?_⟩
  intro hv2
  have hidx2 : (ReleaseStore.Promote
        ((ReleaseStore.Promote s ⟨p, e, b1, v1, u1, notes1⟩ n1).1)
        ⟨p, e, b2, v2, u2, notes2⟩ n2).1.index =
      (s.index ++ [⟨p, e, b1, v1, u1, n1⟩]) ++ [⟨p, e, b2, v2, u2, n2⟩] := rfl
  have hscan3 : scanPrevVersion s3.index p e r3.previousBuildNumber = v2 := by
    rw [h3i, hidx2, h3prev]
    by_cases hb12 : b1 = b2
    · rw [scanPrevVersion_append_match _ p e b2 _ rfl rfl (by rw [hprev2]; exact hb12)]
      have hscan2 : scanPrevVersion
          ((s.index ++ [⟨p, e, b1, v1, u1, n1⟩]) ++ [⟨p, e, b2, v2, u2, n2⟩]) p e
          (ReleaseStore.Promote
            ((ReleaseStore.Promote s ⟨p, e, b1, v1, u1, notes1⟩ n1).1)
            ⟨p, e, b2, v2, u2, notes2⟩ n2).2.previousBuildNumber = v2 := by
        rw [hprev2, hb12]
        exact scanPrevVersion_append_match _ p e b2 _ rfl rfl rfl
      rw [h3v, hidx2, hscan2]
      split_ifs <;> rfl
    · rw [scanPrevVersion_append_nomatch _ p e b2 _
        (fun hm => hb12 (by rw [hprev2] at hm; exact hm.2.2)),
        scanPrevVersion_append_match _ p e b2 _ rfl rfl rfl]
  rw [h4v, hscan3, if_neg hv2]

/-- Counterexample to C2: after Promote(b1=1), Promote(b2=2), the first
rollback returns build 1, but a second consecutive rollback does NOT
fail with the "no previous build" condition — it succeeds and returns
build 2. -/
theorem second_rollback_succeeds_counterexample :
    (ReleaseStore.Rollback c2s2 "demo" "prod" "op" 3).map (fun x => x.2.buildNumber) =
      .ok 1 ∧
    ((ReleaseStore.Rollback c2s2 "demo" "prod" "op" 3).bind
        (fun x => ReleaseStore.Rollback x.1 "demo" "prod" "op" 4)).map
      (fun x => x.2.buildNumber) = .ok 2 := by
  exact ⟨rfl, rfl⟩

/-- C2 (amended): Promote(b1) → Promote(b2) → Rollback returns build b1,
and a second consecutive Rollback succeeds as well, returning build b2
with previous build b1: rollback alternates between the last two builds
indefinitely; the "no previous build" failure occurs only when the
current release's `previous_build_number` is 0. -/
theorem rollback_then_rollback (s : ReleaseStoreState)
    (p e v1 v2 u1 u2 notes1 notes2 rb1 rb2 : String)
    (b1 b2 : Int) (n1 n2 n3 n4 : Nat) (hb1 : b1 ≠ 0) (hb2 : b2 ≠ 0) :
    ∃ s3 r3 s4 r4,
      ReleaseStore.Rollback
          (ReleaseStore.Promote
            ((ReleaseStore.Promote s ⟨p, e, b1, v1, u1, notes1⟩ n1).1)
            ⟨p, e, b2, v2, u2, notes2⟩ n2).1 p e rb1 n3 = .ok (s3, r3) ∧
      r3.buildNumber = b1 ∧
      ReleaseStore.Rollback s3 p e rb2 n4 = .ok (s4, r4) ∧
      r4.buildNumber = b2 ∧ r4.previousBuildNumber = b1 := by
  obtain ⟨s3, r3, s4, r4, heq3, h3b, _, _, heq4, h4b, h4p, _, _⟩ :=
    double_promote_double_rollback s p e v1 v2 u1 u2 notes1 notes2 rb1 rb2
      b1 b2 n1 n2 n3 n4 hb1 hb2
  exact ⟨s3, r3, s4, r4, heq3, h3b, heq4, h4b, h4p⟩

/-- Witness for C2 (amended) at concrete inputs. -/
theorem rollback_then_rollback_witness :
    ((1 : Int) ≠ 0) ∧ ((2 : Int) ≠ 0) ∧
    (∃ s3 r3 s4 r4,
      ReleaseStore.Rollback
          (ReleaseStore.Promote
            ((ReleaseStore.Promote emptyReleaseStore
              ⟨"demo", "prod", 1, "1.0.0", "op", ""⟩ 1).1)
            ⟨"demo", "prod", 2, "1.1.0", "op", ""⟩ 2).1 "demo" "prod" "op" 3 =
        .ok (s3, r3) ∧
      r3.buildNumber = 1 ∧
      ReleaseStore.Rollback s3 "demo" "prod" "op" 4 = .ok (s4, r4) ∧
      r4.buildNumber = 2 ∧ r4.previousBuildNumber = 1) :=
  ⟨by decide, by decide,
   rollback_then_rollback emptyReleaseStore "demo" "prod" "1.0.0" "1.1.0" "op" "op"
     "" "" "op" "op" 1 2 1 2 3 4 (by decide) (by decide)⟩

/-- Counterexample to C3: a current release with `previous_build_number`
= 1 ≠ 0 (current build number 0, reachable through the legacy finalize
path) on which one Rollback succeeds but a second consecutive Rollback
fails — so rolling back twice does not return to the pre-rollback
state. -/
theorem rollback_twice_not_symmetric_counterexample :
    (∃ cur, c3s2.current "demo" "prod" = some cur ∧ cur.previousBuildNumber ≠ 0) ∧
    (ReleaseStore.Rollback c3s2 "demo" "prod" "op" 3).map (fun x => x.2.buildNumber) =
      .ok 1 ∧
    (ReleaseStore.Rollback c3s2 "demo" "prod" "op" 3).bind
        (fun x => ReleaseStore.Rollback x.1 "demo" "prod" "op" 4) =
      .error "no previous build to roll back to for demo/prod" := by
  refine ⟨⟨_, rfl, by decide⟩, rfl, rfl⟩

/-- C3 (amended): whenever Rollback succeeds it produces a new current
release with `build_number` equal to the old `previous_build_number` and
`previous_build_number` equal to the old current build number; and after
Promote(b1, v1), Promote(b2, v2) with b1, b2 ≠ 0 and v2 nonempty, rolling
back twice returns the current (build_number, version,
previous_build_number) to its pre-rollback value (b2, v2, b1). -/
theorem rollback_swap_and_double_rollback_restores :
    (∀ s p e rb now cur, s.current p e = some cur → cur.previousBuildNumber ≠ 0 →
      ∃ s' r, ReleaseStore.Rollback s p e rb now = .ok (s', r) ∧
        r.buildNumber = cur.previousBuildNumber ∧
        r.previousBuildNumber = cur.buildNumber ∧
        s'.current p e = some r) ∧
    (∀ s p e v1 v2 u1 u2 notes1 notes2 rb1 rb2 (b1 b2 : Int) (n1 n2 n3 n4 : Nat),
      b1 ≠ 0 → b2 ≠ 0 → v2 ≠ "" →
      ∃ s3 r3 s4 r4,
        ReleaseStore.Rollback
            (ReleaseStore.Promote
              ((ReleaseStore.Promote s ⟨p, e, b1, v1, u1, notes1⟩ n1).1)
              ⟨p, e, b2, v2, u2, notes2⟩ n2).1 p e rb1 n3 = .ok (s3, r3) ∧
        ReleaseStore.Rollback s3 p e rb2 n4 = .ok (s4, r4) ∧
        r4.buildNumber = b2 ∧ r4.version = v2 ∧ r4.previousBuildNumber = b1) := by
  constructor
  · intro s p e rb now cur hc h0
    obtain ⟨s', r, heq, hb, hp, _, hcur, _⟩ := rollback_ok_fields s p e rb now cur hc h0
    exact ⟨s', r, heq, hb, hp, hcur⟩
  · intro s p e v1 v2 u1 u2 notes1 notes2 rb1 rb2 b1 b2 n1 n2 n3 n4 hb1 hb2 hv2
    obtain ⟨s3, r3, s4, r4, heq3, _, _, _, heq4, h4b, h4p, _, h4v⟩ :=
      double_promote_double_rollback s p e v1 v2 u1 u2 notes1 notes2 rb1 rb2
        b1 b2 n1 n2 n3 n4 hb1 hb2
    exact ⟨s3, r3, s4, r4, heq3, heq4, h4b, h4v hv2, h4p⟩

/-- Witness for C3 (amended) at concrete inputs. -/
theorem rollback_swap_witness :
    (c2s2.current "demo" "prod" =
      some (ReleaseStore.Promote
        ((ReleaseStore.Promote emptyReleaseStore
          ⟨"demo", "prod", 1, "1.0.0", "op", ""⟩ 1).1)
        ⟨"demo", "prod", 2, "1.1.0", "op", ""⟩ 2).2) ∧
    ((ReleaseStore.Promote
        ((ReleaseStore.Promote emptyReleaseStore
          ⟨"demo", "prod", 1, "1.0.0", "op", ""⟩ 1).1)
        ⟨"demo", "prod", 2, "1.1.0", "op", ""⟩ 2).2.previousBuildNumber ≠ 0) ∧
    (∃ s' r, ReleaseStore.Rollback c2s2 "demo" "prod" "op" 3 = .ok (s', r) ∧
      r.buildNumber = 1 ∧ r.previousBuildNumber = 2 ∧
      s'.current "demo" "prod" = some r) ∧
    (∃ s3 r3 s4 r4,
      ReleaseStore.Rollback
          (ReleaseStore.Promote
            ((ReleaseStore.Promote emptyReleaseStore
              ⟨"demo", "prod", 1, "1.0.0", "op", ""⟩ 1).1)
            ⟨"demo", "prod", 2, "1.1.0", "op", ""⟩ 2).1 "demo" "prod" "op" 3 =
        .ok (s3, r3) ∧
      ReleaseStore.Rollback s3 "demo" "prod" "op" 4 = .ok (s4, r4) ∧
      r4.buildNumber = 2 ∧ r4.version = "1.1.0" ∧ r4.previousBuildNumber = 1) := by
  refine ⟨rfl, by decide, ?_, ?_⟩
  · have h := (rollback_swap_and_double_rollback_restores.1 c2s2 "demo" "prod" "op" 3
      _ rfl (by decide))
    simpa using h
  · exact rollback_swap_and_double_rollback_restores.2 emptyReleaseStore "demo" "prod"
      "1.0.0" "1.1.0" "op" "op" "" "" "op" "op" 1 2 1 2 3 4
      (by decide) (by decide) (by decide)

/-- C10: the store-level `Promote` succeeds for every input — arbitrary
environment strings, zero or negative build numbers, empty versions —
and persists the record as the current release; the environment /
build-number / version checks exist only in `handlePromoteRelease`
(which errors whenever one of them fails); and `handleFinalize` invokes
`Promote` with build number 0, so a successful finalize leaves a current
release whose `build_number` is 0. -/
theorem promote_no_validation :
    (∀ s proj env (bn : Int) ver u notes now,
      ∃ rel, ReleaseStore.Get (ReleaseStore.Promote s
          ⟨proj, env, bn, ver, u, notes⟩ now).1 proj env = .ok rel ∧
        rel.environment = env ∧ rel.buildNumber = bn ∧ rel.version = ver) ∧
    (∀ sys req now,
      (validEnvironments req.environment = false ∨ req.buildNumber ≤ 0 ∨
        req.version = "") →
      ∃ msg, Server.handlePromoteRelease sys req now = .error msg) ∧
    (∀ sys project channel version files now sys',
      Server.handleFinalize sys project channel version files now = .ok sys' →
      ∃ rel, sys'.releases.current project (channelToEnv channel) = some rel ∧
        rel.buildNumber = 0) := by
  refine ⟨?_, ?_, ?_⟩
  · intro s proj env bn ver u notes now
    refine ⟨(ReleaseStore.Promote s ⟨proj, env, bn, ver, u, notes⟩ now).2, ?_, rfl, rfl, rfl⟩
    rw [ReleaseStore.Get, promote_current_self]
  · intro sys req now h
    unfold Server.handlePromoteRelease
    split_ifs <;>
      first
        | exact ⟨_, rfl⟩
        | (exfalso; rcases h with h | h | h <;> simp_all)
  · intro sys project channel version files now sys' h
    unfold Server.handleFinalize at h
    cases hv : validatePublishParams project channel version "" with
    | error m => rw [hv] at h; exact absurd h (by simp)
    | ok u =>
      rw [hv] at h
      by_cases hf : files.isEmpty
      · rw [if_pos hf] at h
        exact absurd h (by simp)
      · rw [if_neg hf] at h
        simp only [Except.ok.injEq] at h
        subst h
        exact ⟨_, promote_current_self sys.releases
          ⟨project, channelToEnv channel, 0, String.mk (trimPrefixV version.data),
            "publish-api", ""⟩ now, rfl⟩

/-- Witness for C10 at concrete inputs: promoting environment "qa" with
build -5 and empty version succeeds at the store; the handler rejects
environment "qa"; a finalize for demo/production leaves a build-0
current release. -/
theorem promote_no_validation_witness :
    (∃ rel, ReleaseStore.Get (ReleaseStore.Promote emptyReleaseStore
        ⟨"demo", "qa", -5, "", "op", ""⟩ 7).1 "demo" "qa" = .ok rel ∧
      rel.environment = "qa" ∧ rel.buildNumber = -5 ∧ rel.version = "") ∧
    validEnvironments "qa" = false ∧
    (∃ msg, Server.handlePromoteRelease emptySys ⟨"demo", "qa", -5, "", "op", ""⟩ 7 =
      .error msg) ∧
    Server.handleFinalize emptySys "demo" "production" "v1.2.3" [("app", "h")] 9 =
      .ok c10final ∧
    (∃ rel, c10final.releases.current "demo" (channelToEnv "production") = some rel ∧
      rel.buildNumber = 0) :=
  ⟨promote_no_validation.1 emptyReleaseStore "demo" "qa" (-5) "" "op" "" 7,
   by decide,
   promote_no_validation.2.1 emptySys ⟨"demo", "qa", -5, "", "op", ""⟩ 7
     (Or.inl (by decide)),
   rfl,
   promote_no_validation.2.2 emptySys "demo" "production" "v1.2.3" [("app", "h")] 9
     c10final rfl⟩

/-- C1 fails on the code: `handlePromoteRelease` returns success for
promoting build 2 / 1.1.0 to demo/prod, but it never calls `SetLatest`,
so the in-memory latest map still holds the old entry and the very next
`GetLatest` (the latest.json poll path) for demo/production returns
(1.0.0, build 1), not the newly promoted (1.1.0, build 2). -/
theorem promote_handler_leaves_cache_stale :
    (Server.handlePromoteRelease c1sys ⟨"demo", "prod", 2, "1.1.0", "op", ""⟩ 9).map
      (fun x => (x.2.buildNumber, x.2.version,
        Server.GetLatest x.1.server x.1.releases "demo" "production")) =
    .ok (2, "1.1.0", some ⟨"1.0.0", 1⟩) := by
  rfl

lemma append_tmp_ne (s : String) : s ++ ".tmp" ≠ s := by
  intro h
  have hlen := congrArg String.length h
  rw [String.length_append] at hlen
  have h4 : (".tmp" : String).length = 4 := rfl
  omega

lemma atomicWriteFile_atomic (path data : String) :
    atomicallyReplaces (atomicWriteFile path data) path := by
  refine ⟨?_, data, by simp [atomicWriteFile], by simp [atomicWriteFile]⟩
  intro d hd
  simp only [atomicWriteFile, List.mem_cons, List.mem_singleton] at hd
  rcases hd with h | h | h
  · exact append_tmp_ne path (by injection h with h1 _; exact h1.symm)
  · exact FsOp.noConfusion h
  · exact absurd h (List.not_mem_nil _)

/-- Counterexample to C4 at a concrete data directory: the release
store's `saveIndex` and `saveRelease` write the canonical
`releases.yaml` and `release.yaml` paths directly — a single plain write,
no temporary file, no rename. -/
theorem release_store_writes_directly_counterexample :
    ReleaseStore.saveIndexOps "data" "x" =
      [FsOp.writeFile "data/releases.yaml" "x"] ∧
    ReleaseStore.saveReleaseOps "data" "demo" "prod" "y" =
      [FsOp.writeFile "data/releases/demo/prod/release.yaml" "y"] := by
  exact ⟨rfl, rfl⟩

/-- C4 (amended): the build store's writes of `builds.yaml` and
`builds/<p>/<n>/build.yaml` go through `atomicWriteFile` (write the
`.tmp` sibling, then rename it over the target, never touching the
canonical name directly), while the release store's writes of
`releases.yaml`, `releases/<p>/<e>/release.yaml` and `latest.json` are
plain direct writes of the canonical path with no temporary file and no
rename. -/
theorem write_paths_atomicity (dataDir fileDir project env : String) (number : Int)
    (data : String) :
    atomicallyReplaces (BuildStore.saveIndexOps dataDir data)
      (BuildStore.indexPath dataDir) ∧
    atomicallyReplaces (atomicWriteFile (BuildStore.buildPath dataDir project number) data)
      (BuildStore.buildPath dataDir project number) ∧
    writesCanonicalDirectly (ReleaseStore.saveIndexOps dataDir data)
      (ReleaseStore.indexPath dataDir) ∧
    writesCanonicalDirectly (ReleaseStore.saveReleaseOps dataDir project env data)
      (ReleaseStore.releasePath dataDir project env) ∧
    writesCanonicalDirectly (ReleaseStore.writeLatestJSONOps fileDir project env data)
      (fileDir ++ "/" ++ project ++ "/" ++ env ++ "/latest.json") ∧
    (∀ a b, FsOp.rename a b ∉ ReleaseStore.saveIndexOps dataDir data) ∧
    (∀ a b, FsOp.rename a b ∉ ReleaseStore.saveReleaseOps dataDir project env data) ∧
    (∀ a b, FsOp.rename a b ∉ ReleaseStore.writeLatestJSONOps fileDir project env data) := by
  refine ⟨atomicWriteFile_atomic _ _, atomicWriteFile_atomic _ _,
    ⟨data, by simp [ReleaseStore.saveIndexOps]⟩,
    ⟨data, by simp [ReleaseStore.saveReleaseOps]⟩,
    ⟨data, by simp [ReleaseStore.writeLatestJSONOps]⟩,
    ?_, ?_, ?_⟩ <;>
  · intro a b hab
    simp only [ReleaseStore.saveIndexOps, ReleaseStore.saveReleaseOps,
      ReleaseStore.writeLatestJSONOps, List.mem_singleton] at hab
    exact FsOp.noConfusion hab

end HydraRelease
